import Mathlib

/-
Verification of the Detective Quest game (detective-quest repository).

The repository holds two standalone C programs:
  * `algoritmos_avancados.c` — the full game: a binary tree of rooms (`Sala`),
    a BST of collected clues (`NoPista`), a chained hash table mapping clue
    text to suspect name (`HashTable`), an interactive exploration loop
    (`explorarSalas`) and a final accusation tally (`verificarSuspeitoFinal`).
  * an unnamed earlier file (here the `Part000` namespace) with only the room
    tree and a simpler exploration loop.

This file is a shallow embedding of those programs.  C strings become Lean
`String`s; a nullable `char*` becomes `Option String`; a nullable struct
pointer becomes either an `Option` or an explicit `nil` constructor.  `strcmp`
compares the bytes of NUL-terminated UTF-8 strings; on valid UTF-8, comparing
byte sequences and comparing code-point sequences yield the same order, so the
embedded comparison `strLt` works on the code points (`Char.toNat`) of
`String.data`.  The djb2 hash works on the actual UTF-8 bytes, with the
`unsigned long` arithmetic of the LP64 target modelled as `Nat` modulo 2^64.
-/

/- ------------------------------------------------------------------
   strcmp: lexicographic comparison.
   `ltChars s t = true` models `strcmp(s, t) < 0`: the first position where
   the strings differ decides, and a strict prefix (earlier NUL) is smaller.
   ------------------------------------------------------------------ -/

def ltChars : List Char → List Char → Bool
  | [], [] => false
  | [], _ :: _ => true
  | _ :: _, [] => false
  | a :: s, b :: t =>
    if a.toNat < b.toNat then true
    else if b.toNat < a.toNat then false
    else ltChars s t

/-- `strLt s t` models `strcmp(s, t) < 0`. -/
def strLt (s t : String) : Bool := ltChars s.data t.data

/-- `strLe s t` models `strcmp(s, t) <= 0`, i.e. non-decreasing order. -/
def strLe (s t : String) : Bool := !strLt t s

/- ------------------------------------------------------------------
   hash_djb2 (source lines 174-180).
   The C loop consumes the UTF-8 bytes of the string, one `unsigned char`
   at a time.  `utf8Len` is the standard UTF-8 encoding of one code point.
   ------------------------------------------------------------------ -/

def utf8Len (c : Char) : List Nat :=
  let n := c.toNat
  if n < 0x80 then [n]
  else if n < 0x800 then [0xC0 + n / 0x40, 0x80 + n % 0x40]
  else if n < 0x10000 then [0xE0 + n / 0x1000, 0x80 + (n / 0x40) % 0x40, 0x80 + n % 0x40]
  else [0xF0 + n / 0x40000, 0x80 + (n / 0x1000) % 0x40, 0x80 + (n / 0x40) % 0x40, 0x80 + n % 0x40]

def strBytes (s : String) : List Nat := s.data.flatMap utf8Len

/-- djb2: `hash = hash * 33 + c` starting from 5381, over the bytes of the
string, in `unsigned long` (64-bit) arithmetic. -/
def hash_djb2 (s : String) : Nat :=
  (strBytes s).foldl (fun h c => (h * 33 + c) % (2 ^ 64)) 5381

/- ------------------------------------------------------------------
   BST of collected clues: struct NoPista (source lines 36-40).
   `NoPista.nil` is the NULL pointer.  A nullable `const char*` argument
   is an `Option String`.
   ------------------------------------------------------------------ -/

inductive NoPista where
  | nil : NoPista
  | node (pista : String) (esq dir : NoPista) : NoPista
deriving DecidableEq

/-- `inserirPista` (source lines 124-143): ordered BST insert, duplicates are
not re-inserted, NULL clue returns the root unchanged. -/
def inserirPista : NoPista → Option String → NoPista
  | raiz, none => raiz
  | NoPista.nil, some p => NoPista.node p NoPista.nil NoPista.nil
  | NoPista.node x l r, some p =>
    if p = x then NoPista.node x l r
    else if strLt p x then NoPista.node x (inserirPista l (some p)) r
    else NoPista.node x l (inserirPista r (some p))

/-- `buscaPista` (source lines 146-152): returns 1 iff the clue is found;
NULL root or NULL clue give 0. -/
def buscaPista : NoPista → Option String → Bool
  | NoPista.nil, _ => false
  | NoPista.node _ _ _, none => false
  | NoPista.node x l r, some p =>
    if p = x then true
    else if strLt p x then buscaPista l (some p)
    else buscaPista r (some p)

/-- `listarPistas` (source lines 155-160) prints the clues in-order; here it
returns the printed sequence (the spec's `inOrder`). -/
def listarPistas : NoPista → List String
  | NoPista.nil => []
  | NoPista.node x l r => listarPistas l ++ x :: listarPistas r

/-- The binary-search-tree ordering property: every clue in a left subtree
compares `strcmp`-less than the node's clue, every clue in a right subtree
compares greater. -/
def isBST : NoPista → Bool
  | NoPista.nil => true
  | NoPista.node x l r =>
    (listarPistas l).all (fun y => strLt y x) &&
    (listarPistas r).all (fun y => strLt x y) &&
    isBST l && isBST r

/-- A sequence of `inserirPista` calls starting from the NULL root, exactly as
`main` threads `raizPistas` through the game. -/
def buildSet (entradas : List (Option String)) : NoPista :=
  entradas.foldl inserirPista NoPista.nil

/- ------------------------------------------------------------------
   Hash table clue -> suspect: struct HashEntry / HashTable
   (source lines 43-53, 183-231).
   ------------------------------------------------------------------ -/

structure HashEntry where
  pista : String
  suspeito : String
deriving DecidableEq

structure HashTable where
  size : Nat
  buckets : List (List HashEntry)
deriving DecidableEq

/-- `criarHash` (source lines 183-190): `size` buckets, all NULL (`calloc`). -/
def criarHash (size : Nat) : HashTable :=
  { size := size, buckets := List.replicate size [] }

/-- The chain scan of `inserirNaHash` (source lines 202-209): the first entry
whose clue matches gets its suspect overwritten, the rest is untouched. -/
def substituirSuspeito : List HashEntry → String → String → List HashEntry
  | [], _, _ => []
  | e :: resto, p, s =>
    if e.pista = p then { pista := e.pista, suspeito := s } :: resto
    else e :: substituirSuspeito resto p s

def cadeiaContem (cadeia : List HashEntry) (p : String) : Bool :=
  cadeia.any (fun e => e.pista = p)

/-- One bucket update of `inserirNaHash`: overwrite in place if the clue is
already chained, otherwise prepend a fresh entry (source lines 202-216). -/
def inserirNaCadeia (cadeia : List HashEntry) (p s : String) : List HashEntry :=
  if cadeiaContem cadeia p then substituirSuspeito cadeia p s
  else { pista := p, suspeito := s } :: cadeia

/-- The non-NULL body of `inserirNaHash` (source lines 199-216). -/
def inserirNaHashCore (ht : HashTable) (p s : String) : HashTable :=
  let h := hash_djb2 p % ht.size
  { size := ht.size, buckets := ht.buckets.set h (inserirNaCadeia (ht.buckets.getD h []) p s) }

/-- `inserirNaHash` (source lines 197-217).  The C function mutates `ht`; the
embedding returns the updated table.  A NULL table, clue or suspect is a
no-op (line 198). -/
def inserirNaHash : Option HashTable → Option String → Option String → Option HashTable
  | some ht, some p, some s => some (inserirNaHashCore ht p s)
  | ht, _, _ => ht

/-- Linear chain scan of `encontrarSuspeito` (source lines 227-229). -/
def buscarNaCadeia : List HashEntry → String → Option String
  | [], _ => none
  | e :: resto, p => if e.pista = p then some e.suspeito else buscarNaCadeia resto p

/-- The non-NULL body of `encontrarSuspeito` (source lines 226-230). -/
def encontrarSuspeitoCore (ht : HashTable) (p : String) : Option String :=
  buscarNaCadeia (ht.buckets.getD (hash_djb2 p % ht.size) []) p

/-- `encontrarSuspeito` (source lines 224-231): NULL table or NULL clue give
NULL (line 225); otherwise hash, pick the bucket, scan the chain. -/
def encontrarSuspeito : Option HashTable → Option String → Option String
  | some ht, some p => encontrarSuspeitoCore ht p
  | _, _ => none

/-- Well-formedness of a table as produced by `criarHash`: a positive bucket
count and exactly `size` bucket slots. -/
def wfTable (ht : HashTable) : Prop :=
  0 < ht.size ∧ ht.buckets.length = ht.size

/-- A sequence of `inserirNaHashCore` updates. -/
def applyPuts (ht : HashTable) (puts : List (String × String)) : HashTable :=
  puts.foldl (fun t q => inserirNaHashCore t q.1 q.2) ht

/-- Follows the spec's words, not the source: the suspect of the most recent
`put` for the exact clue text `c` in the sequence `puts` (later list elements
are the more recent puts), or `none` if no put ever used that clue text. -/
def lastPut : List (String × String) → String → Option String
  | [], _ => none
  | (p, s) :: resto, c =>
    match lastPut resto c with
    | some x => some x
    | none => if c = p then some s else none

/- ------------------------------------------------------------------
   Room tree: struct Sala (source lines 29-33).  `criarSala` makes a
   childless room; `main` wires children directly.
   ------------------------------------------------------------------ -/

inductive Sala where
  | mk (nome : String) (esq dir : Option Sala)

def Sala.nome : Sala → String
  | Sala.mk n _ _ => n

def Sala.esq : Sala → Option Sala
  | Sala.mk _ e _ => e

def Sala.dir : Sala → Option Sala
  | Sala.mk _ _ d => d

def criarSala (nome : String) : Sala := Sala.mk nome none none

/-- `getPistaParaSala` (source lines 258-272): the static room-name → clue
table; rooms without an entry (and a NULL name) yield NULL. -/
def getPistaParaSala : Option String → Option String
  | none => none
  | some nomeSala =>
    if nomeSala = "Hall de Entrada" then some "pegada molhada"
    else if nomeSala = "Sala de Estar" then some "fio de cabelo"
    else if nomeSala = "Biblioteca" then some "bilhete rasgado"
    else if nomeSala = "Jardim de Inverno" then some "marca de luva"
    else if nomeSala = "Cozinha" then some "cheiro de queimado"
    else if nomeSala = "Despensa" then some "chave estranha"
    else if nomeSala = "Porão" then some "mancha de tinta"
    else if nomeSala = "Quarto Principal" then some "anel riscado"
    else if nomeSala = "Escritório" then some "nota de dívida"
    else none

/-- The clue step run at the top of each `explorarSalas` loop iteration
(source lines 297-315): look the room's clue up and insert it into the BST
unless it was already collected.  The `encontrarSuspeito` call there only
feeds a printf and is dropped. -/
def visitaPista (raizPistas : NoPista) (sala : Sala) : NoPista :=
  match getPistaParaSala (some (Sala.nome sala)) with
  | none => raizPistas
  | some p =>
    if buscaPista raizPistas (some p) then raizPistas
    else inserirPista raizPistas (some p)

inductive NavResult where
  | move (prox : Sala)
  | stay
  | sair

/-- The navigation dispatch of `explorarSalas` (source lines 338-349):
'e'/'E' moves left when a left child exists, 'd'/'D' moves right when a right
child exists, 's'/'S' exits, anything else (including a direction with no
child) only prints a message and stays. -/
def navStep (sala : Sala) (op : Char) : NavResult :=
  if op = 'e' ∨ op = 'E' then
    match Sala.esq sala with
    | some prox => NavResult.move prox
    | none => NavResult.stay
  else if op = 'd' ∨ op = 'D' then
    match Sala.dir sala with
    | some prox => NavResult.move prox
    | none => NavResult.stay
  else if op = 's' ∨ op = 'S' then NavResult.sair
  else NavResult.stay

inductive FimExploracao where
  | entradaEsgotada
  | saiu
deriving DecidableEq

/-- The `explorarSalas` loop (source lines 288-351) with the console modelled
as the list of characters `scanf(" %c")` will deliver.  Each iteration runs
the clue step on the current room, then reads one character; `scanf` failure
(exhausted input) aborts the loop (lines 329-334).  The result carries the
final clue BST, how the loop ended, and how many navigation characters were
consumed.  Note the loop never terminates on its own at a leaf room: line
318-320 only prints a notice. -/
def explorarGo : List Char → Sala → NoPista → Option HashTable → NoPista × FimExploracao × Nat
  | [], sala, raizPistas, _ => (visitaPista raizPistas sala, FimExploracao.entradaEsgotada, 0)
  | op :: resto, sala, raizPistas, ht =>
    let raiz' := visitaPista raizPistas sala
    match navStep sala op with
    | NavResult.move prox =>
      let r := explorarGo resto prox raiz' ht
      (r.1, r.2.1, r.2.2 + 1)
    | NavResult.stay =>
      let r := explorarGo resto sala raiz' ht
      (r.1, r.2.1, r.2.2 + 1)
    | NavResult.sair => (raiz', FimExploracao.saiu, 1)

/-- `explorarSalas` with the C argument order (current room, clue BST root,
hash table) plus the modelled input stream. -/
def explorarSalas (atual : Sala) (raizPistas : NoPista) (ht : Option HashTable)
    (entradas : List Char) : NoPista × FimExploracao × Nat :=
  explorarGo entradas atual raizPistas ht

/- ------------------------------------------------------------------
   Accusation tally (source lines 361-386) and the verdict printed by
   main (source lines 470-476).
   ------------------------------------------------------------------ -/

/-- `auxiliarContagem` (source lines 378-386): in-order walk threading the
counter; `s && strcmp(s, acusado) == 0` is `encontrarSuspeito … = some acusado`. -/
def auxiliarContagem : NoPista → Option HashTable → String → Nat → Nat
  | NoPista.nil, _, _, contador => contador
  | NoPista.node x l r, ht, acusado, contador =>
    let c1 := auxiliarContagem l ht acusado contador
    let c2 := if encontrarSuspeito ht (some x) = some acusado then c1 + 1 else c1
    auxiliarContagem r ht acusado c2

/-- `verificarSuspeitoFinal` (source lines 361-375): 0 for a NULL accused or
a NULL clue root, otherwise the full in-order count. -/
def verificarSuspeitoFinal (raizPistas : NoPista) (ht : Option HashTable)
    (acusado : Option String) : Nat :=
  match acusado with
  | none => 0
  | some a =>
    match raizPistas with
    | NoPista.nil => 0
    | NoPista.node x l r => auxiliarContagem (NoPista.node x l r) ht a 0

/-- The verdict printed by `main` (source lines 470-476). -/
def resultadoJulgamento (contador : Nat) : String :=
  if 2 ≤ contador then "ACUSAÇÃO SUSTENTADA!" else "ACUSAÇÃO INSUFICIENTE."

/- ------------------------------------------------------------------
   Reference configuration built by main (source lines 402-428).
   ------------------------------------------------------------------ -/

/-- The fixed mansion of `main` (source lines 402-414): 9 `criarSala` calls
wired exactly as in the source, including the two extra rooms
"Quarto Principal" (left of Biblioteca) and "Escritório" (left of Despensa). -/
def mansao : Sala :=
  Sala.mk "Hall de Entrada"
    (some (Sala.mk "Sala de Estar"
      (some (Sala.mk "Biblioteca" (some (criarSala "Quarto Principal")) none))
      (some (criarSala "Jardim de Inverno"))))
    (some (Sala.mk "Cozinha"
      (some (Sala.mk "Despensa" (some (criarSala "Escritório")) none))
      (some (criarSala "Porão"))))

/-- The clue → suspect table of `main` (source lines 417-428): `criarHash 101`
followed by the nine `inserirNaHash` calls, in source order. -/
def htRef : Option HashTable :=
  let ht := some (criarHash 101)
  let ht := inserirNaHash ht (some "pegada molhada") (some "Sr. Avelar")
  let ht := inserirNaHash ht (some "fio de cabelo") (some "Sra. Beatriz")
  let ht := inserirNaHash ht (some "marca de luva") (some "Sr. Avelar")
  let ht := inserirNaHash ht (some "bilhete rasgado") (some "Srta. Clara")
  let ht := inserirNaHash ht (some "chave estranha") (some "Sra. Beatriz")
  let ht := inserirNaHash ht (some "mancha de tinta") (some "Sr. Avelar")
  let ht := inserirNaHash ht (some "cheiro de queimado") (some "Sr. Dourado")
  let ht := inserirNaHash ht (some "anel riscado") (some "Srta. Clara")
  let ht := inserirNaHash ht (some "nota de dívida") (some "Sr. Dourado")
  ht

/-- Number of rooms in a (sub)tree rooted at a possibly-NULL `Sala*`. -/
def contarSalas : Option Sala → Nat
  | none => 0
  | some (Sala.mk _ e d) => 1 + contarSalas e + contarSalas d

/-- Total number of entries chained in a possibly-NULL hash table. -/
def contarEntradas : Option HashTable → Nat
  | none => 0
  | some ht => (ht.buckets.map List.length).sum

/- ------------------------------------------------------------------
   The second source file of the repository (src/unnamed/part_000):
   the earlier standalone program with only the room tree and a simpler
   exploration loop that *does* terminate at leaf rooms.
   ------------------------------------------------------------------ -/

namespace Part000

inductive Sala where
  | mk (nome : String) (esquerda direita : Option Sala)

def Sala.nome : Sala → String
  | Sala.mk n _ _ => n

def Sala.esquerda : Sala → Option Sala
  | Sala.mk _ e _ => e

def Sala.direita : Sala → Option Sala
  | Sala.mk _ _ d => d

/-- part_000 `criarSala`: a room with the given name and no children. -/
def criarSala (nome : String) : Sala := Sala.mk nome none none

inductive Fim where
  | semCaminhos
  | saiu
  | entradaEsgotada
deriving DecidableEq

/-- part_000 `explorarSalas` (its lines 34-71): on entering a room with no
children it prints "Não há mais caminhos a seguir" and returns *before*
reading any input; otherwise it reads one character and navigates with the
same 'e'/'d'/'s' dispatch as the full game.  The result records how the loop
ended and how many input characters were consumed. -/
def explorarGo : List Char → Sala → Fim × Nat
  | entradas, sala =>
    if (Sala.esquerda sala).isNone && (Sala.direita sala).isNone then (Fim.semCaminhos, 0)
    else
      match entradas with
      | [] => (Fim.entradaEsgotada, 0)
      | op :: resto =>
        if op = 'e' ∨ op = 'E' then
          let r := explorarGo resto ((Sala.esquerda sala).getD sala)
          (r.1, r.2 + 1)
        else if op = 'd' ∨ op = 'D' then
          let r := explorarGo resto ((Sala.direita sala).getD sala)
          (r.1, r.2 + 1)
        else if op = 's' ∨ op = 'S' then (Fim.saiu, 1)
        else
          let r := explorarGo resto sala
          (r.1, r.2 + 1)

/-- part_000 `main`'s fixed mansion (its lines 78-93): 7 rooms, no extra
third-level rooms. -/
def mansao : Sala :=
  Sala.mk "Hall de Entrada"
    (some (Sala.mk "Sala de Estar"
      (some (criarSala "Biblioteca"))
      (some (criarSala "Jardim de Inverno"))))
    (some (Sala.mk "Cozinha"
      (some (criarSala "Despensa"))
      (some (criarSala "Porão"))))

def contarSalas : Option Sala → Nat
  | none => 0
  | some (Sala.mk _ e d) => 1 + contarSalas e + contarSalas d

end Part000

/- ------------------------------------------------------------------
   Order facts about the embedded strcmp.
   ------------------------------------------------------------------ -/

theorem charEq_of_toNat {a b : Char} (h : a.toNat = b.toNat) : a = b :=
  Char.ext (UInt32.ext h)

theorem stringEq_of_data {s t : String} (h : s.data = t.data) : s = t := by
  cases s; cases t; exact congrArg String.mk h

theorem ltChars_irrefl (s : List Char) : ltChars s s = false := by
  induction s with
  | nil => rfl
  | cons a s ih => simp [ltChars, Nat.lt_irrefl, ih]

theorem ltChars_trans {a b c : List Char} (h1 : ltChars a b = true)
    (h2 : ltChars b c = true) : ltChars a c = true := by
  induction a generalizing b c with
  | nil =>
    cases b with
    | nil => simp [ltChars] at h1
    | cons hb tb =>
      cases c with
      | nil => simp [ltChars] at h2
      | cons hc tc => simp [ltChars]
  | cons ha ta ih =>
    cases b with
    | nil => simp [ltChars] at h1
    | cons hb tb =>
      cases c with
      | nil => simp [ltChars] at h2
      | cons hc tc =>
        simp only [ltChars] at h1 h2 ⊢
        split_ifs at h1 h2 ⊢ <;>
          first
          | rfl
          | omega
          | exact ih h1 h2
          | simp_all

theorem ltChars_eq_of_not {s t : List Char} (h1 : ltChars s t = false)
    (h2 : ltChars t s = false) : s = t := by
  induction s generalizing t with
  | nil =>
    cases t with
    | nil => rfl
    | cons hb tb => simp [ltChars] at h1
  | cons ha ta ih =>
    cases t with
    | nil => simp [ltChars] at h2
    | cons hb tb =>
      simp only [ltChars] at h1 h2
      split_ifs at h1 h2 with hab hba <;> try simp_all
      have hn : ha.toNat = hb.toNat := by omega
      have he : ha = hb := charEq_of_toNat hn
      have ht : ta = tb := ih h1 (by simpa [hn] using h2)
      simp [he, ht]

theorem strLt_irrefl (s : String) : strLt s s = false := ltChars_irrefl s.data

theorem strLt_trans {a b c : String} (h1 : strLt a b = true) (h2 : strLt b c = true) :
    strLt a c = true := ltChars_trans h1 h2

theorem strLt_asymm {a b : String} (h : strLt a b = true) : strLt b a = false := by
  by_contra hc
  have h2 : strLt b a = true := by
    cases hba : strLt b a with
    | false => exact absurd hba hc
    | true => rfl
  have : strLt a a = true := strLt_trans h h2
  rw [strLt_irrefl] at this
  exact Bool.false_ne_true this

theorem strEq_of_not_lt {s t : String} (h1 : strLt s t = false) (h2 : strLt t s = false) :
    s = t := stringEq_of_data (ltChars_eq_of_not h1 h2)

theorem strLt_of_ne_of_not_lt {p x : String} (hne : ¬ p = x) (hnlt : strLt p x = false) :
    strLt x p = true := by
  cases h : strLt x p with
  | true => rfl
  | false => exact absurd (strEq_of_not_lt hnlt h) hne

theorem strLe_of_lt {a b : String} (h : strLt a b = true) : strLe a b = true := by
  unfold strLe
  rw [strLt_asymm h]
  rfl

theorem strNe_of_lt {a b : String} (h : strLt a b = true) : a ≠ b := by
  intro he
  rw [he, strLt_irrefl] at h
  exact Bool.false_ne_true h

/- ------------------------------------------------------------------
   Lemmas about the clue BST.
   ------------------------------------------------------------------ -/

theorem inserirPista_none (t : NoPista) : inserirPista t none = t := by
  cases t <;> rfl

theorem mem_listar_inserir {t : NoPista} {p q : String}
    (h : q ∈ listarPistas (inserirPista t (some p))) : q ∈ listarPistas t ∨ q = p := by
  induction t with
  | nil =>
    simp only [inserirPista, listarPistas, List.nil_append, List.mem_singleton] at h
    exact Or.inr h
  | node x l r ihl ihr =>
    simp only [inserirPista] at h
    split_ifs at h with h1 h2
    · exact Or.inl h
    · simp only [listarPistas, List.mem_append, List.mem_cons] at h ⊢
      rcases h with h | h | h
      · rcases ihl h with h' | h'
        · exact Or.inl (Or.inl h')
        · exact Or.inr h'
      · exact Or.inl (Or.inr (Or.inl h))
      · exact Or.inl (Or.inr (Or.inr h))
    · simp only [listarPistas, List.mem_append, List.mem_cons] at h ⊢
      rcases h with h | h | h
      · exact Or.inl (Or.inl h)
      · exact Or.inl (Or.inr (Or.inl h))
      · rcases ihr h with h' | h'
        · exact Or.inl (Or.inr (Or.inr h'))
        · exact Or.inr h'

theorem isBST_inserir {t : NoPista} (p : String) (h : isBST t = true) :
    isBST (inserirPista t (some p)) = true := by
  induction t with
  | nil => simp [inserirPista, isBST, listarPistas]
  | node x l r ihl ihr =>
    simp only [isBST, Bool.and_eq_true, List.all_eq_true] at h
    obtain ⟨⟨⟨hall, harr⟩, hbl⟩, hbr⟩ := h
    simp only [inserirPista]
    split_ifs with h1 h2
    · simp only [isBST, Bool.and_eq_true, List.all_eq_true]
      exact ⟨⟨⟨hall, harr⟩, hbl⟩, hbr⟩
    · simp only [isBST, Bool.and_eq_true, List.all_eq_true]
      refine ⟨⟨⟨?_, harr⟩, ihl hbl⟩, hbr⟩
      intro y hy
      rcases mem_listar_inserir hy with h' | h'
      · exact hall y h'
      · rw [h']; exact h2
    · have hpx : strLt p x = false := by simpa using h2
      have hgt : strLt x p = true := strLt_of_ne_of_not_lt h1 hpx
      simp only [isBST, Bool.and_eq_true, List.all_eq_true]
      refine ⟨⟨⟨hall, ?_⟩, hbl⟩, ihr hbr⟩
      intro y hy
      rcases mem_listar_inserir hy with h' | h'
      · exact harr y h'
      · rw [h']; exact hgt

theorem pairwise_listar {t : NoPista} (h : isBST t = true) :
    List.Pairwise (fun a b => strLt a b = true) (listarPistas t) := by
  induction t with
  | nil => simp [listarPistas]
  | node x l r ihl ihr =>
    simp only [isBST, Bool.and_eq_true, List.all_eq_true] at h
    obtain ⟨⟨⟨hall, harr⟩, hbl⟩, hbr⟩ := h
    simp only [listarPistas]
    rw [List.pairwise_append]
    refine ⟨ihl hbl, ?_, ?_⟩
    · rw [List.pairwise_cons]
      exact ⟨fun b hb => harr b hb, ihr hbr⟩
    · intro a ha b hb
      rcases List.mem_cons.mp hb with rfl | hb'
      · exact hall a ha
      · exact strLt_trans (hall a ha) (harr b hb')

theorem isBST_foldl (entradas : List (Option String)) (t : NoPista) (h : isBST t = true) :
    isBST (entradas.foldl inserirPista t) = true := by
  induction entradas generalizing t with
  | nil => exact h
  | cons e resto ih =>
    rw [List.foldl_cons]
    apply ih
    cases e with
    | none => rw [inserirPista_none]; exact h
    | some p => exact isBST_inserir p h

theorem busca_inserir_self (t : NoPista) (p : String) :
    buscaPista (inserirPista t (some p)) (some p) = true := by
  induction t with
  | nil => simp [inserirPista, buscaPista]
  | node x l r ihl ihr =>
    simp only [inserirPista]
    split_ifs with h1 h2
    · simp [buscaPista, h1]
    · simp [buscaPista, h1, h2, ihl]
    · have hpx : strLt p x = false := by simpa using h2
      simp [buscaPista, h1, hpx, ihr]

theorem busca_inserir_mono_some {p q : String} (t : NoPista) :
    buscaPista t (some p) = true → buscaPista (inserirPista t (some q)) (some p) = true := by
  induction t with
  | nil => intro h; simp [buscaPista] at h
  | node x l r ihl ihr =>
    intro h
    simp only [inserirPista]
    split_ifs with h1 h2
    · exact h
    · simp only [buscaPista] at h ⊢
      split_ifs at h ⊢ with hp1 hp2
      · rfl
      · exact ihl h
      · exact h
    · simp only [buscaPista] at h ⊢
      split_ifs at h ⊢ with hp1 hp2
      · rfl
      · exact h
      · exact ihr h

theorem busca_inserir_mono {t : NoPista} {p : String} (u : Option String)
    (h : buscaPista t (some p) = true) :
    buscaPista (inserirPista t u) (some p) = true := by
  cases u with
  | none => rw [inserirPista_none]; exact h
  | some q => exact busca_inserir_mono_some t h

theorem busca_foldl (entradas : List (Option String)) {t : NoPista} {p : String}
    (h : buscaPista t (some p) = true) :
    buscaPista (entradas.foldl inserirPista t) (some p) = true := by
  induction entradas generalizing t with
  | nil => exact h
  | cons e resto ih => rw [List.foldl_cons]; exact ih (busca_inserir_mono e h)

theorem inserir_of_busca {t : NoPista} {p : String}
    (h : buscaPista t (some p) = true) : inserirPista t (some p) = t := by
  induction t with
  | nil => simp [buscaPista] at h
  | node x l r ihl ihr =>
    simp only [buscaPista] at h
    simp only [inserirPista]
    split_ifs at h ⊢ with h1 h2
    · rfl
    · rw [ihl h]
    · rw [ihr h]

/- ------------------------------------------------------------------
   Lemmas about the clue → suspect hash table.
   ------------------------------------------------------------------ -/

theorem getD_set_eq {α : Type} (l : List α) (i : Nat) (x : α) (d : α) (h : i < l.length) :
    (l.set i x).getD i d = x := by
  rw [List.getD_eq_getElem?_getD, List.getElem?_set]
  simp [h]

theorem getD_set_ne {α : Type} (l : List α) {i j : Nat} (x : α) (d : α) (h : ¬ i = j) :
    (l.set i x).getD j d = l.getD j d := by
  rw [List.getD_eq_getElem?_getD, List.getElem?_set, if_neg h, ← List.getD_eq_getElem?_getD]

theorem wf_criarHash {n : Nat} (h : 0 < n) : wfTable (criarHash n) :=
  ⟨h, List.length_replicate n []⟩

theorem wf_inserirNaHashCore {ht : HashTable} (hwf : wfTable ht) (p s : String) :
    wfTable (inserirNaHashCore ht p s) := by
  obtain ⟨h1, h2⟩ := hwf
  exact ⟨h1, by simp [inserirNaHashCore, List.length_set, h2]⟩

theorem buscar_substituir_self {cadeia : List HashEntry} {p : String} (s : String)
    (h : cadeiaContem cadeia p = true) :
    buscarNaCadeia (substituirSuspeito cadeia p s) p = some s := by
  induction cadeia with
  | nil => simp [cadeiaContem] at h
  | cons e resto ih =>
    simp only [substituirSuspeito]
    split_ifs with h1
    · simp [buscarNaCadeia, h1]
    · simp only [buscarNaCadeia]
      rw [if_neg h1]
      apply ih
      simpa [cadeiaContem, h1] using h

theorem buscar_inserirNaCadeia_self (cadeia : List HashEntry) (p s : String) :
    buscarNaCadeia (inserirNaCadeia cadeia p s) p = some s := by
  unfold inserirNaCadeia
  split_ifs with h
  · exact buscar_substituir_self s h
  · simp [buscarNaCadeia]

theorem buscar_substituir_other {cadeia : List HashEntry} {p c : String} (s : String)
    (hne : ¬ c = p) :
    buscarNaCadeia (substituirSuspeito cadeia p s) c = buscarNaCadeia cadeia c := by
  induction cadeia with
  | nil => rfl
  | cons e resto ih =>
    simp only [substituirSuspeito]
    split_ifs with h1
    · have hnc : ¬ e.pista = c := by rw [h1]; intro hh; exact hne hh.symm
      simp [buscarNaCadeia, hnc]
    · simp only [buscarNaCadeia]
      rw [ih]

theorem buscar_inserirNaCadeia_other (cadeia : List HashEntry) {p c : String} (s : String)
    (hne : ¬ c = p) :
    buscarNaCadeia (inserirNaCadeia cadeia p s) c = buscarNaCadeia cadeia c := by
  unfold inserirNaCadeia
  split_ifs with h
  · exact buscar_substituir_other s hne
  · have hnc : ¬ ({ pista := p, suspeito := s } : HashEntry).pista = c :=
      fun hh => hne (hh.symm)
    simp [buscarNaCadeia, hnc]

theorem encontrar_inserirCore {ht : HashTable} (hwf : wfTable ht) (p s c : String) :
    encontrarSuspeitoCore (inserirNaHashCore ht p s) c =
      if c = p then some s else encontrarSuspeitoCore ht c := by
  obtain ⟨hpos, hlen⟩ := hwf
  have hplt : hash_djb2 p % ht.size < ht.buckets.length := by
    rw [hlen]; exact Nat.mod_lt _ hpos
  by_cases hcp : c = p
  · subst hcp
    simp only [encontrarSuspeitoCore, inserirNaHashCore, if_pos rfl]
    rw [getD_set_eq _ _ _ _ hplt]
    exact buscar_inserirNaCadeia_self _ _ _
  · rw [if_neg hcp]
    simp only [encontrarSuspeitoCore, inserirNaHashCore]
    by_cases hidx : hash_djb2 p % ht.size = hash_djb2 c % ht.size
    · rw [← hidx, getD_set_eq _ _ _ _ hplt, buscar_inserirNaCadeia_other _ _ hcp, hidx]
    · rw [getD_set_ne _ _ _ hidx]

theorem encontrar_criarHash (n : Nat) (c : String) :
    encontrarSuspeitoCore (criarHash n) c = none := by
  unfold encontrarSuspeitoCore criarHash
  simp only
  rw [List.getD_eq_getElem?_getD, List.getElem?_replicate]
  split_ifs <;> rfl

theorem encontrar_applyPuts (puts : List (String × String)) {ht : HashTable}
    (hwf : wfTable ht) (c : String) :
    encontrarSuspeitoCore (applyPuts ht puts) c =
      match lastPut puts c with
      | some x => some x
      | none => encontrarSuspeitoCore ht c := by
  induction puts generalizing ht with
  | nil => rfl
  | cons q resto ih =>
    obtain ⟨p, s⟩ := q
    rw [show applyPuts ht ((p, s) :: resto) = applyPuts (inserirNaHashCore ht p s) resto from rfl]
    rw [ih (wf_inserirNaHashCore hwf p s)]
    cases hl : lastPut resto c with
    | some x => simp [lastPut, hl]
    | none =>
      simp only [lastPut, hl]
      rw [encontrar_inserirCore hwf p s c]
      by_cases hcp : c = p
      · simp [hcp]
      · simp [hcp]

theorem foldl_inserirNaHash_some (puts : List (String × String)) (ht : HashTable) :
    puts.foldl (fun t q => inserirNaHash t (some q.1) (some q.2)) (some ht) =
      some (applyPuts ht puts) := by
  induction puts generalizing ht with
  | nil => rfl
  | cons q resto ih =>
    rw [List.foldl_cons]
    exact ih _

/- ------------------------------------------------------------------
   Lemmas about the exploration clue step and the accusation tally.
   ------------------------------------------------------------------ -/

theorem visitaPista_idem (raizPistas : NoPista) (sala : Sala) :
    visitaPista (visitaPista raizPistas sala) sala = visitaPista raizPistas sala := by
  unfold visitaPista
  cases getPistaParaSala (some (Sala.nome sala)) with
  | none => rfl
  | some p =>
    by_cases hb : buscaPista raizPistas (some p) = true
    · simp [hb]
    · have hbf : buscaPista raizPistas (some p) = false := by simpa using hb
      simp [hbf, busca_inserir_self]

theorem auxiliarContagem_eq (t : NoPista) (ht : Option HashTable) (a : String) (c : Nat) :
    auxiliarContagem t ht a c =
      c + ((listarPistas t).filter
        (fun p => encontrarSuspeito ht (some p) = some a)).length := by
  induction t generalizing c with
  | nil => simp [auxiliarContagem, listarPistas]
  | node x l r ihl ihr =>
    simp only [auxiliarContagem, listarPistas, List.filter_append, List.filter_cons,
      List.length_append]
    rw [ihr, ihl]
    by_cases hcond : encontrarSuspeito ht (some x) = some a
    · simp [hcond]
      omega
    · simp [hcond]
      omega

/- ------------------------------------------------------------------
   The claims.
   ------------------------------------------------------------------ -/

/-- Claim C1: for every sequence of `put` operations on the suspect index
(starting from the freshly created 101-bucket table of `main`), `get(clue)`
returns the suspect of the most recent `put` for that exact clue text (last
write wins when the same clue is put twice), and `get` on a clue text never
put returns NULL. -/
theorem claim_C1 (puts : List (String × String)) (c : String) :
    encontrarSuspeito
        (puts.foldl (fun ht q => inserirNaHash ht (some q.1) (some q.2)) (some (criarHash 101)))
        (some c)
      = lastPut puts c := by
  rw [foldl_inserirNaHash_some]
  show encontrarSuspeitoCore (applyPuts (criarHash 101) puts) c = lastPut puts c
  rw [encontrar_applyPuts puts (wf_criarHash (by norm_num)) c, encontrar_criarHash]
  cases lastPut puts c <;> rfl

/-- Claim C2: the binary-search-tree ordering property holds after every
sequence of inserts (hence after every individual insert), and consequently
the in-order listing of the collected clues is non-decreasing under the
lexicographic `strcmp` order, for any insertion order. -/
theorem claim_C2 (entradas : List (Option String)) :
    isBST (buildSet entradas) = true ∧
    List.Pairwise (fun a b => strLe a b = true) (listarPistas (buildSet entradas)) := by
  have hb : isBST (buildSet entradas) = true := isBST_foldl entradas NoPista.nil rfl
  exact ⟨hb, (pairwise_listar hb).imp (fun h => strLe_of_lt h)⟩

/-- Claim C3: for every sequence of inserts and every clue text `t`,
`buscaPista` finds `t` immediately after `inserirPista t` and keeps finding
it after any later insertions (insertion never removes or hides an existing
element). -/
theorem claim_C3 (antes depois : List (Option String)) (t : String) :
    buscaPista (buildSet (antes ++ some t :: depois)) (some t) = true := by
  unfold buildSet
  rw [List.foldl_append, List.foldl_cons]
  exact busca_foldl depois (busca_inserir_self _ t)

/-- Claim C4: inserting a clue text already present in the set returns the
set unchanged — the tree and hence its in-order listing are identical — and
each distinct clue text appears at most once in the in-order listing. -/
theorem claim_C4 (entradas : List (Option String)) (t : String) :
    (buscaPista (buildSet entradas) (some t) = true →
      inserirPista (buildSet entradas) (some t) = buildSet entradas ∧
      listarPistas (inserirPista (buildSet entradas) (some t))
        = listarPistas (buildSet entradas)) ∧
    (listarPistas (buildSet entradas)).Nodup := by
  constructor
  · intro h
    have he := inserir_of_busca h
    exact ⟨he, by rw [he]⟩
  · have hb : isBST (buildSet entradas) = true := isBST_foldl entradas NoPista.nil rfl
    exact (pairwise_listar hb).imp (fun h => strNe_of_lt h)

/-- Witness for claim C4 at the concrete set that already holds
"anel riscado": re-inserting it leaves the tree unchanged. -/
theorem claim_C4_witness :
    inserirPista (buildSet [some "anel riscado"]) (some "anel riscado")
      = buildSet [some "anel riscado"] :=
  ((claim_C4 [some "anel riscado"] "anel riscado").1 (by decide)).1

/-- Claim C5: the tally returned by `verificarSuspeitoFinal` is the number of
collected clues whose suspect lookup equals the accused name (case-sensitive
exact string equality), and `main`'s verdict is "ACUSAÇÃO SUSTENTADA!" if and
only if that count is at least 2. -/
theorem claim_C5 (raizPistas : NoPista) (ht : Option HashTable) (acusado : String) :
    verificarSuspeitoFinal raizPistas ht (some acusado)
        = ((listarPistas raizPistas).filter
            (fun p => encontrarSuspeito ht (some p) = some acusado)).length ∧
    (resultadoJulgamento (verificarSuspeitoFinal raizPistas ht (some acusado))
        = "ACUSAÇÃO SUSTENTADA!"
      ↔ 2 ≤ verificarSuspeitoFinal raizPistas ht (some acusado)) := by
  have hcount : verificarSuspeitoFinal raizPistas ht (some acusado)
      = ((listarPistas raizPistas).filter
          (fun p => encontrarSuspeito ht (some p) = some acusado)).length := by
    cases raizPistas with
    | nil => simp [verificarSuspeitoFinal, listarPistas]
    | node x l r =>
      show auxiliarContagem (NoPista.node x l r) ht acusado 0 = _
      rw [auxiliarContagem_eq]
      omega
  refine ⟨hcount, ?_⟩
  unfold resultadoJulgamento
  split_ifs with h
  · simp [h]
  · constructor
    · intro hs
      exact absurd hs (by decide)
    · intro h2
      exact absurd h2 h

/-- Counterexample to claim C6: in the full game the room "Quarto Principal"
has no children, yet `explorarSalas` still solicits (and consumes) a
navigation character there — with input 's' it consumes one character and
ends in the player-exit state, not in an input-independent dead-end state. -/
theorem claim_C6_counterexample :
    (explorarSalas (Sala.mk "Quarto Principal" none none) NoPista.nil none ['s']).2.2 = 1 ∧
    ¬ (explorarSalas (Sala.mk "Quarto Principal" none none) NoPista.nil none ['s']).2.2 = 0 ∧
    (explorarSalas (Sala.mk "Quarto Principal" none none) NoPista.nil none ['s']).2.1
      = FimExploracao.saiu := by
  decide

/-- Claim C6 as amended: only the simpler engine of `src/unnamed/part_000`
stops at a childless room without reading input (ending in its "no further
paths" terminal state); the full game's engine reports the dead end but still
solicits a navigation choice — at a childless room with pending input it
always consumes at least one character. -/
theorem claim_C6_amended :
    (∀ (nome : String) (entradas : List Char),
      Part000.explorarGo entradas (Part000.criarSala nome) = (Part000.Fim.semCaminhos, 0)) ∧
    (∀ (nome : String) (raizPistas : NoPista) (ht : Option HashTable) (op : Char)
        (resto : List Char),
      1 ≤ (explorarSalas (Sala.mk nome none none) raizPistas ht (op :: resto)).2.2) := by
  constructor
  · intro nome entradas
    rw [Part000.explorarGo.eq_def]
    simp [Part000.criarSala, Part000.Sala.esquerda, Part000.Sala.direita]
  · intro nome raizPistas ht op resto
    show 1 ≤ (explorarGo (op :: resto) (Sala.mk nome none none) raizPistas ht).2.2
    simp only [explorarGo]
    cases hnav : navStep (Sala.mk nome none none) op with
    | move prox => simp
    | stay => simp
    | sair => simp

/-- Claim C7: a navigation input that is an unrecognized token or a
direction whose child does not exist leaves the engine in the same room
(`navStep` stays), and re-running the clue step of that same room leaves the
clue set unchanged — the invalid input is a no-op on the state. -/
theorem claim_C7 (sala : Sala) (op : Char) (raizPistas : NoPista)
    (h : (¬ (op = 'e' ∨ op = 'E' ∨ op = 'd' ∨ op = 'D' ∨ op = 's' ∨ op = 'S'))
      ∨ ((op = 'e' ∨ op = 'E') ∧ Sala.esq sala = none)
      ∨ ((op = 'd' ∨ op = 'D') ∧ Sala.dir sala = none)) :
    navStep sala op = NavResult.stay ∧
    visitaPista (visitaPista raizPistas sala) sala = visitaPista raizPistas sala := by
  refine ⟨?_, visitaPista_idem raizPistas sala⟩
  unfold navStep
  rcases h with h | ⟨he, hnone⟩ | ⟨hd, hnone⟩
  · push_neg at h
    obtain ⟨h1, h2, h3, h4, h5, h6⟩ := h
    rw [if_neg (by tauto), if_neg (by tauto), if_neg (by tauto)]
  · rw [if_pos he, hnone]
  · have hne : ¬ (op = 'e' ∨ op = 'E') := by
      rcases hd with rfl | rfl <;> simp
    rw [if_neg hne, if_pos hd, hnone]

/-- Witness for claim C7: the unrecognized token 'x' at the mansion's root
room stays in place and leaves the clue set unchanged. -/
theorem claim_C7_witness :
    navStep mansao 'x' = NavResult.stay ∧
    visitaPista (visitaPista NoPista.nil mansao) mansao = visitaPista NoPista.nil mansao :=
  claim_C7 mansao 'x' NoPista.nil (Or.inl (by decide))

/-- Counterexample to claim C8: in the reference configuration the room
"Porão" does have a clue under the room→clue association, namely
"mancha de tinta". -/
theorem claim_C8_counterexample :
    getPistaParaSala (some "Porão") = some "mancha de tinta" ∧
    ¬ getPistaParaSala (some "Porão") = none := by
  decide

/-- Claim C8 as amended: "Porão" carries the clue "mancha de tinta" (which
points to "Sr. Avelar"); after visiting "Hall de Entrada", then right to
"Cozinha" (collecting "cheiro de queimado"), then right to "Porão", then
exiting, the collected clues are exactly the three listed and accusing
"Sr. Dourado" still yields tally = 1, because only "cheiro de queimado"
points to him. -/
theorem claim_C8_amended :
    listarPistas (explorarSalas mansao NoPista.nil htRef ['d', 'd', 's']).1
        = ["cheiro de queimado", "mancha de tinta", "pegada molhada"] ∧
    verificarSuspeitoFinal (explorarSalas mansao NoPista.nil htRef ['d', 'd', 's']).1 htRef
        (some "Sr. Dourado") = 1 := by
  decide

/-- Counterexample to claim C9: the room tree built at startup by the full
game's `main` does not contain 8 rooms. -/
theorem claim_C9_counterexample : ¬ contarSalas (some mansao) = 8 := by
  have h : contarSalas (some mansao) = 9 := by simp [contarSalas, mansao, criarSala]
  omega

/-- Claim C9 as amended: the reference room tree of the full game contains
exactly 9 named rooms (the tree of `src/unnamed/part_000` contains 7), and
the clue→suspect table populated at startup contains exactly 9 entries. -/
theorem claim_C9_amended :
    contarSalas (some mansao) = 9 ∧
    Part000.contarSalas (some Part000.mansao) = 7 ∧
    contarEntradas htRef = 9 := by
  refine ⟨by simp [contarSalas, mansao, criarSala],
    by simp [Part000.contarSalas, Part000.mansao, Part000.criarSala],
    by decide⟩

/-- Claim C10: every core operation is total on NULL arguments and leaves
the state unchanged there — inserting a NULL clue returns the set unchanged,
searching for a NULL clue is false, `put` with a NULL table, clue or suspect
changes nothing, and `get` on a NULL table or NULL clue returns NULL. -/
theorem claim_C10 :
    (∀ raiz : NoPista, inserirPista raiz none = raiz) ∧
    (∀ raiz : NoPista, buscaPista raiz none = false) ∧
    (∀ (ht : Option HashTable) (pista suspeito : Option String),
      ht = none ∨ pista = none ∨ suspeito = none → inserirNaHash ht pista suspeito = ht) ∧
    (∀ pista : Option String, encontrarSuspeito none pista = none) ∧
    (∀ ht : Option HashTable, encontrarSuspeito ht none = none) := by
  refine ⟨inserirPista_none, ?_, ?_, ?_, ?_⟩
  · intro raiz
    cases raiz <;> rfl
  · rintro ht pista suspeito (rfl | rfl | rfl)
    · cases pista <;> cases suspeito <;> rfl
    · cases ht <;> cases suspeito <;> rfl
    · cases ht <;> cases pista <;> rfl
  · intro pista
    cases pista <;> rfl
  · intro ht
    cases ht <;> rfl

/-- Witness for claim C10: a `put` with a NULL clue on the fresh 101-bucket
table changes nothing. -/
theorem claim_C10_witness :
    inserirNaHash (some (criarHash 101)) none (some "Sr. Avelar") = some (criarHash 101) :=
  claim_C10.2.2.1 (some (criarHash 101)) none (some "Sr. Avelar") (Or.inr (Or.inl rfl))
